import Mathlib

/-!
Verification of the dispatch-queue / retry-fallback core of the
AI-Workflow-Architect repository (src/server/services/orchestrator.ts).

The orchestrator's collaborators (the store, the cost governor, the log
event stream) are modelled as explicit state in a `World` record; each
collaborator call site may throw, controlled by a `Faults` record of
optional error messages (`none` = the call succeeds).  `executeTask`
translates `OrchestratorQueue.executeTask`, `processTask` the try/catch
around it in `processQueue` (lines 48-59), and `queueStep` the queue's
admission machinery (`enqueue` / `processQueue` guards / the `finally`
block) as a deterministic transition function over an explicit state.
-/

/-- Token usage carried in an executor response (`response.usage`).
`costEstimate` is optional: the TS field may be `undefined`. -/
structure UsageInfo where
  inputTokens : Nat
  outputTokens : Nat
  costEstimate : Option String
deriving DecidableEq

/-- The `outputJson` payload written to a run: either absent, the failure
payload `\x7b error \x7d`, or the completion payload
`\x7b content, usage, usedProvider, attempts \x7d`. -/
inductive Output where
  | noneOut : Output
  | errorOut (error : String) : Output
  | completedOut (content : Option String) (usage : Option UsageInfo)
      (usedProvider : String) (attempts : Nat) : Output
deriving DecidableEq

/-- A persisted agent run record (the fields of the store's run row that
the orchestrator reads or writes). -/
structure AgentRun where
  provider : String
  model : String
  status : String
  outputJson : Output
  costEstimate : String
deriving DecidableEq

/-- An organization record; the orchestrator only reads `ownerUserId`. -/
structure Org where
  ownerUserId : String
deriving DecidableEq

/-- A message row created via `storage.createMessage`. -/
structure Message where
  projectId : String
  agentRunId : String
  role : String
  content : String
deriving DecidableEq

/-- A usage record row created via `storage.createUsageRecord`; the
`metadata` object is flattened into the three `meta*` fields. -/
structure UsageRecord where
  orgId : String
  userId : String
  provider : String
  model : String
  inputTokens : Nat
  outputTokens : Nat
  estimatedCostUsd : String
  metaAgentRunId : String
  metaOriginalProvider : String
  metaAttempts : Nat
deriving DecidableEq

/-- An audit row created via `storage.createAuditLog`; `detailJson` is
flattened into the `detail*` fields. -/
structure AuditRecord where
  orgId : String
  userId : Option String
  action : String
  target : String
  detailProvider : String
  detailUsedProvider : String
  detailModel : String
  detailCostEstimate : String
  detailAttempts : Nat
deriving DecidableEq

/-- One event on the queue's log stream (`this.emit("log", runId, ...)`):
a severity type (info/warning/error/success) and a message. -/
structure LogItem where
  type : String
  message : String
deriving DecidableEq

/-- The observable state of all collaborators: the store's tables, the
cost-governor calls (`trackCost` invocations as (orgId, cost) pairs) and
the emitted log events tagged by run id. -/
structure World where
  runs : List (String × AgentRun)
  orgs : List (String × Org)
  messages : List Message
  usageRecords : List UsageRecord
  auditLogs : List AuditRecord
  costCalls : List (String × String)
  logs : List (String × LogItem)
deriving DecidableEq

/-- The `AgentTask` interface from orchestrator.ts. -/
structure AgentTask where
  runId : String
  projectId : String
  orgId : String
  goal : String
  mode : String
deriving DecidableEq

/-- The outcome of `retryService.callWithRetry` as consumed by
`executeTask`: success flag, content, usage, the provider actually used,
cumulative attempt count, and an optional error description. -/
structure RetryResponse where
  success : Bool
  content : Option String
  usage : Option UsageInfo
  usedProvider : String
  attempts : Nat
  error : Option String
deriving DecidableEq

/-- The executor as seen by the queue: given provider, prompt (goal) and
model it yields a response together with the warning log events its
`onProgress` callback emitted during retries/fallbacks. -/
def Exec : Type := String → String → String → RetryResponse × List LogItem

/-- Fault injection for each collaborator call site of `executeTask` and
of the catch block in `processQueue`: `some msg` makes that call throw an
error with message `msg`; `none` lets it succeed. -/
structure Faults where
  getRun : Option String
  updateRunning : Option String
  createUserMsg : Option String
  createAsstMsg : Option String
  updateCompleted : Option String
  trackCost : Option String
  getOrg : Option String
  createUsage : Option String
  createAudit : Option String
  updateFailed : Option String
deriving DecidableEq

/-- No collaborator call throws. -/
def noFaults : Faults :=
  ⟨none, none, none, none, none, none, none, none, none, none⟩

/-- First-match association lookup on the store's run table
(`storage.getAgentRun`). -/
def lookupRun : List (String × AgentRun) → String → Option AgentRun
  | [], _ => none
  | p :: rest, id => if p.1 = id then some p.2 else lookupRun rest id

/-- First-match association lookup on the org table (`storage.getOrg`). -/
def lookupOrg : List (String × Org) → String → Option Org
  | [], _ => none
  | p :: rest, id => if p.1 = id then some p.2 else lookupOrg rest id

/-- Models `storage.updateAgentRun(id, fields)`: a partial update of the run row
with the given id; rows with other ids are untouched, and an update of a
missing id changes nothing (zero rows match). -/
def updateRun (l : List (String × AgentRun)) (id : String)
    (f : AgentRun → AgentRun) : List (String × AgentRun) :=
  l.map (fun p => if p.1 = id then (p.1, f p.2) else p)

/-- Emit one log event for a run id (`this.emit("log", runId, ...)`). -/
def emitLog (id ty msg : String) (w : World) : World :=
  { w with logs := w.logs ++ [(id, ⟨ty, msg⟩)] }

/-- JavaScript `x || d` on an optional string: `undefined` and the empty
string are falsy. -/
def jsOrStr (o : Option String) (d : String) : String :=
  match o with
  | none => d
  | some s => if s = "" then d else s

/-- Models `response.usage?.costEstimate || "0"`. -/
def costOf (usage : Option UsageInfo) : String :=
  match usage with
  | none => "0"
  | some u => jsOrStr u.costEstimate "0"

/-- Digits of a numeral, most significant first, as a natural number. -/
def digitsVal (l : List Char) : Nat :=
  l.foldl (fun a c => a * 10 + (c.toNat - 48)) 0

/-- Models `parseFloat` restricted to plain decimal numerals (optional sign,
digits, optional fractional part), which is the shape of every cost
estimate string; anything else is NaN (`none`).  The exact value is
returned unreduced as a pair `(n, k)` standing for `n / 10 ^ k`. -/
def parseFloatDec (s : String) : Option (Int × Nat) :=
  let neg : Bool := s.data.head? = some '-'
  let body : List Char :=
    if s.data.head? = some '-' ∨ s.data.head? = some '+' then
      s.data.tail else s.data
  match body.splitOn '.' with
  | [a] =>
      if a ≠ [] ∧ a.all Char.isDigit then
        some ((if neg then -1 else 1) * (digitsVal a : Int), 0)
      else none
  | [a, b] =>
      if (a ≠ [] ∨ b ≠ []) ∧ a.all Char.isDigit ∧ b.all Char.isDigit then
        some ((if neg then -1 else 1) *
          ((digitsVal a : Int) * (10 : Int) ^ b.length + (digitsVal b : Int)),
          b.length)
      else none
  | _ => none

/-- The guard `parseFloat(costEstimate) > 0` (NaN compares false):
`n / 10 ^ k > 0` iff `n > 0`. -/
def parseFloatPos (s : String) : Bool :=
  match parseFloatDec s with
  | some nk => decide (0 < nk.1)
  | none => false

/-- Sequence a fallible world transformation after a fallible result:
once a call has thrown, the remaining steps do not run, but the effects
already performed persist (JS exception semantics). -/
def andThen (r : World × Option String) (f : World → World × Option String) :
    World × Option String :=
  match r.2 with
  | some _ => r
  | none => f r.1

/-- Run one collaborator call: if the fault injection says it throws, the
world is unchanged and the error propagates; otherwise the call's effect
is applied. -/
def faulty (fault : Option String) (act : World → World) (w : World) :
    World × Option String :=
  match fault with
  | some e => (w, some e)
  | none => (act w, none)

/-- Models `storage.createMessage(\x7bprojectId, agentRunId, role, content\x7d)`. -/
def addMsg (projectId runId role content : String) (w : World) : World :=
  { w with messages := w.messages ++ [⟨projectId, runId, role, content⟩] }

/-- The `\x7b status: "running" \x7d` partial update. -/
def setRunning (id : String) (w : World) : World :=
  { w with runs := updateRun w.runs id (fun r => { r with status := "running" }) }

/-- The completion update: status, outputJson and costEstimate. -/
def setCompleted (id : String) (resp : RetryResponse) (cost : String)
    (w : World) : World :=
  { w with runs := updateRun w.runs id (fun r =>
      { r with status := "completed",
               outputJson := Output.completedOut resp.content resp.usage
                 resp.usedProvider resp.attempts,
               costEstimate := cost }) }

/-- The failure update written by the catch block in `processQueue`:
status "failed" and the error captured in the output payload. -/
def setFailed (id : String) (e : String) (w : World) : World :=
  { w with runs := updateRun w.runs id (fun r =>
      { r with status := "failed", outputJson := Output.errorOut e }) }

/-- Models `trackCost(orgId, costEstimate)`, recorded as a call. -/
def addCostCall (orgId cost : String) (w : World) : World :=
  { w with costCalls := w.costCalls ++ [(orgId, cost)] }

/-- Models `storage.createUsageRecord(...)` as built at orchestrator.ts:155-168. -/
def addUsage (t : AgentTask) (org : Org) (run : AgentRun)
    (resp : RetryResponse) (cost : String) (w : World) : World :=
  { w with usageRecords := w.usageRecords ++
      [⟨t.orgId, org.ownerUserId, resp.usedProvider, run.model,
        (resp.usage.map UsageInfo.inputTokens).getD 0,
        (resp.usage.map UsageInfo.outputTokens).getD 0,
        cost, t.runId, run.provider, resp.attempts⟩] }

/-- Models `storage.createAuditLog(...)` as built at orchestrator.ts:176-188. -/
def addAudit (t : AgentTask) (run : AgentRun) (resp : RetryResponse)
    (cost : String) (w : World) : World :=
  { w with auditLogs := w.auditLogs ++
      [⟨t.orgId, none, "agent_run_completed", t.runId,
        run.provider, resp.usedProvider, run.model, cost, resp.attempts⟩] }

/-- Translation of `OrchestratorQueue.executeTask` (orchestrator.ts:71-189):
the sequence of collaborator calls and log emissions for one task, with
each call's possible throw driven by `fl`.  Returns the world after the
effects that did run, and `some msg` when a step threw. -/
def executeTask (fl : Faults) (ex : Exec) (t : AgentTask) (w : World) :
    World × Option String :=
  match fl.getRun with
  | some e => (w, some e)
  | none =>
    match lookupRun w.runs t.runId with
    | none => (w, some "Agent run not found")
    | some run =>
      let w := emitLog t.runId "info"
        ("Starting agent run with " ++ run.provider ++ " (" ++ run.model ++ ")") w
      andThen (faulty fl.updateRunning (setRunning t.runId) w) (fun w =>
      andThen (faulty fl.createUserMsg (addMsg t.projectId t.runId "user" t.goal) w) (fun w =>
      let w := emitLog t.runId "info"
        ("Calling " ++ run.provider ++ " with model " ++ run.model ++
         " (with retry/fallback)...") w
      let rp := ex run.provider t.goal run.model
      let resp := rp.1
      let w := { w with logs := w.logs ++ rp.2.map (fun li => (t.runId, li)) }
      if resp.success then
        let w := if resp.usedProvider ≠ run.provider then
            emitLog t.runId "info"
              ("Used fallback provider: " ++ resp.usedProvider ++ " (" ++
               toString resp.attempts ++ " total attempts)") w
          else w
        andThen (faulty fl.createAsstMsg
            (addMsg t.projectId t.runId "assistant" (resp.content.getD "")) w) (fun w =>
        let cost := costOf resp.usage
        andThen (faulty fl.updateCompleted (setCompleted t.runId resp cost) w) (fun w =>
        andThen (if parseFloatPos cost then
            faulty fl.trackCost (addCostCall t.orgId cost) w
          else (w, none)) (fun w =>
        match fl.getOrg with
        | some e => (w, some e)
        | none =>
          andThen (match lookupOrg w.orgs t.orgId with
            | none => (w, none)
            | some org => faulty fl.createUsage (addUsage t org run resp cost) w) (fun w =>
          let w := emitLog t.runId "success"
            ("Agent run completed. Cost: $" ++ cost) w
          faulty fl.createAudit (addAudit t run resp cost) w))))
      else
        (w, some (jsOrStr resp.error "Provider call failed"))))

/-- Result of running the body of `processQueue` for one admitted task:
the world after the try/catch, and `some msg` when an exception escaped
the catch block itself (an unhandled rejection of `processQueue`). -/
structure BodyResult where
  world : World
  escaped : Option String
deriving DecidableEq

/-- The try/catch around `executeTask` in `processQueue`
(orchestrator.ts:48-59): a throw from `executeTask` is turned into an
error log event plus a `failed` update; a throw from that update itself
is not caught and escapes. -/
def processTask (fl : Faults) (ex : Exec) (t : AgentTask) (w : World) :
    BodyResult :=
  match executeTask fl ex t w with
  | (w1, none) => ⟨w1, none⟩
  | (w1, some e) =>
    let w2 := emitLog t.runId "error" ("Task failed: " ++ e) w1
    match fl.updateFailed with
    | some e2 => ⟨w2, some e2⟩
    | none => ⟨setFailed t.runId e w2, none⟩

/-- The fixed concurrency constant (`private concurrency = 2`). -/
def concurrency : Nat := 2

/-- The mutable state of `OrchestratorQueue` plus the collaborator
`World`.  `pending` is the task currently inside `await this.executeTask`
(the `processing` flag is set exactly while it is `some`).  `escapes`
collects exceptions that left `processQueue` uncaught (unhandled
rejections).  `admitted` and `enqHist` are observation-only histories (the
order in which tasks were admitted / enqueued); no step reads them. -/
structure OrchestratorState where
  queue : List AgentTask
  processing : Bool
  activeCount : Nat
  pending : Option AgentTask
  world : World
  escapes : List String
  admitted : List AgentTask
  enqHist : List AgentTask
deriving DecidableEq

/-- Events driving the queue: an external `enqueue` call, an invocation
of `processQueue` (triggered by `enqueue` or by the `finally` block's
`setTimeout`), and the completion of the currently executing task. -/
inductive QueueAction where
  | enq (t : AgentTask) : QueueAction
  | poll : QueueAction
  | finish : QueueAction
deriving DecidableEq

/-- One step of the queue.
`enq t` is `enqueue` (orchestrator.ts:29-33): append to the backlog and
emit the "Task queued" info event (the `processQueue()` call it makes is
a subsequent `poll`).
`poll` is the synchronous prefix of `processQueue` (lines 35-47): return
if `processing` or `activeCount >= concurrency`, otherwise shift the
backlog head, bump `activeCount` and set `processing`.
`finish` is the rest of `processQueue` for the admitted task: the
try/catch body (`processTask`) followed by the `finally` block clearing
`activeCount`/`processing`; a throw out of the catch block becomes an
unhandled rejection, recorded in `escapes`. -/
def queueStep (fl : Faults) (ex : Exec) (s : OrchestratorState) :
    QueueAction → OrchestratorState
  | .enq t =>
    { s with queue := s.queue ++ [t],
             world := emitLog t.runId "info" "Task queued" s.world,
             enqHist := s.enqHist ++ [t] }
  | .poll =>
    if s.processing ∨ s.activeCount ≥ concurrency then s
    else
      match s.queue with
      | [] => s
      | t :: rest =>
        { s with queue := rest,
                 activeCount := s.activeCount + 1,
                 processing := true,
                 pending := some t,
                 admitted := s.admitted ++ [t] }
  | .finish =>
    match s.pending with
    | none => s
    | some t =>
      let r := processTask fl ex t s.world
      { s with pending := none,
               activeCount := s.activeCount - 1,
               processing := false,
               world := r.world,
               escapes := s.escapes ++ r.escaped.toList }

/-- The queue's initial state over a given collaborator world: empty
backlog, flag clear, no active task. -/
def initState (w : World) : OrchestratorState :=
  ⟨[], false, 0, none, w, [], [], []⟩

/-- Run the queue from `initState w` through a sequence of events. -/
def runQueue (fl : Faults) (ex : Exec) (w : World) (acts : List QueueAction) :
    OrchestratorState :=
  acts.foldl (queueStep fl ex) (initState w)

/-- Modelled from the spec: `retryService.callWithRetry` lives in
src/server/services/retryService.ts, which is not under src/ (only its
caller `executeTask` is).  Per spec section 4.1/7, one provider attempt
either succeeds, fails transiently (retried in place), or fails
terminally (immediately exhausts that provider's retries). -/
inductive AttemptResult where
  | ok (content : String) : AttemptResult
  | transientErr (msg : String) : AttemptResult
  | terminalErr (msg : String) : AttemptResult
deriving DecidableEq

/-- Modelled from the spec: the executor's outcome fields that section
4.1 specifies (`success`, `content`, `usedProvider`, cumulative
`attempts`, `error`). -/
structure ExecOutcome where
  success : Bool
  content : Option String
  usedProvider : String
  attempts : Nat
  error : Option String
deriving DecidableEq

/-- Modelled from the spec: retry one provider.  `beh p i` is the result
of the (i+1)-th call to provider `p`; `fuel` is the remaining attempt
budget against this provider (the attempt ceiling at the first call), `i`
the number of tries already made on it.  Returns the content on success
(`none` if the provider was exhausted) and the number of tries consumed. -/
def tryProvider (beh : String → Nat → AttemptResult) (p : String) :
    Nat → Nat → Option String × Nat
  | 0, i => (none, i)
  | fuel + 1, i =>
    match beh p i with
    | .ok c => (some c, i + 1)
    | .transientErr _ => tryProvider beh p fuel (i + 1)
    | .terminalErr _ => (none, i + 1)

/-- Modelled from the spec: `callWithRetry` tries each provider of the
fixed fallback order in turn — the primary first — giving each up to
`ceiling` attempts, and stops at the first success; `total` accumulates
attempts across providers. -/
def callWithRetry (beh : String → Nat → AttemptResult) (ceiling : Nat) :
    List String → Nat → ExecOutcome
  | [], total => ⟨false, none, "", total, some "All providers exhausted"⟩
  | p :: rest, total =>
    match tryProvider beh p ceiling 0 with
    | (some c, used) => ⟨true, some c, p, total + used, none⟩
    | (none, used) => callWithRetry beh ceiling rest (total + used)

/-- A sample run row used by concrete witnesses. -/
def sampleRun : AgentRun := ⟨"openai", "gpt-4o", "queued", .noneOut, "0"⟩

/-- A sample world: one run "r1" owned by org "o1" with owner "alice". -/
def sampleWorld : World :=
  ⟨[("r1", sampleRun)], [("o1", ⟨"alice"⟩)], [], [], [], [], []⟩

/-- A sample world whose org table is empty. -/
def sampleWorldNoOrg : World :=
  ⟨[("r1", sampleRun)], [], [], [], [], [], []⟩

/-- A sample task for run "r1". -/
def sampleTask : AgentTask := ⟨"r1", "p1", "o1", "build the app", "architect"⟩

/-- A second sample task (a different backlogged run). -/
def sampleTask2 : AgentTask := ⟨"r2", "p1", "o1", "review the app", "architect"⟩

/-- An executor that succeeds on the requested provider with cost "0.5". -/
def execSuccessHalf : Exec :=
  fun _ _ _ => (⟨true, some "hi", some ⟨5, 7, some "0.5"⟩, "openai", 1, none⟩, [])

/-- An executor that succeeds but reports no usage (so the derived cost
estimate is "0"). -/
def execSuccessZero : Exec :=
  fun _ _ _ => (⟨true, some "hi", none, "openai", 1, none⟩, [])

/-- An executor whose outcome is a failure after 3 attempts. -/
def execFailure : Exec :=
  fun _ _ _ => (⟨false, none, none, "openai", 3, some "all providers failed"⟩, [])

/-- Faults making only `trackCost` throw. -/
def faultsTrackCost : Faults := { noFaults with trackCost := some "tc down" }

/-- Faults making `getAgentRun` throw and the catch block's failure
update throw as well. -/
def faultsCatchThrows : Faults :=
  { noFaults with getRun := some "db down", updateFailed := some "db still down" }

/-- Faults making only `getAgentRun` throw. -/
def faultsGetRun : Faults := { noFaults with getRun := some "db down" }

/-- A provider behavior that fails transiently on the first call and
succeeds on the second, on every provider. -/
def behRetryOnce : String → Nat → AttemptResult :=
  fun _ i => if i = 0 then .transientErr "timeout" else .ok "done"

theorem lookup_updateRun_self (l : List (String × AgentRun)) (id : String)
    (f : AgentRun → AgentRun) :
    lookupRun (updateRun l id f) id = (lookupRun l id).map f := by
  induction l with
  | nil => rfl
  | cons p rest ih =>
    by_cases h : p.1 = id
    · simp [updateRun, lookupRun, h] at ih ⊢
    · simp [updateRun, lookupRun, h] at ih ⊢; exact ih

theorem lookup_updateRun_other (l : List (String × AgentRun)) (id r : String)
    (f : AgentRun → AgentRun) (h : r ≠ id) :
    lookupRun (updateRun l id f) r = lookupRun l r := by
  induction l with
  | nil => rfl
  | cons p rest ih =>
    by_cases hk : p.1 = id
    · have hkr : ¬ (p.1 = r) := fun hc => h (hc ▸ hk)
      simp [updateRun, lookupRun, hk, hkr, Ne.symm h] at ih ⊢; exact ih
    · by_cases hr : p.1 = r
      · simp [updateRun, lookupRun, hk, hr, h] at ih ⊢
      · simp [updateRun, lookupRun, hk, hr] at ih ⊢; exact ih

theorem updateRun_of_lookup_none (l : List (String × AgentRun)) (id : String)
    (f : AgentRun → AgentRun) (h : lookupRun l id = none) :
    updateRun l id f = l := by
  induction l with
  | nil => rfl
  | cons p rest ih =>
    by_cases hk : p.1 = id
    · rw [lookupRun, if_pos hk] at h; cases h
    · rw [lookupRun, if_neg hk] at h
      simp [updateRun, hk] at ih ⊢
      exact ih h

/-- A fallible world transformation leaves the run row with id `r`
unchanged. -/
def PreservesRuns (r : String) (f : World → World × Option String) : Prop :=
  ∀ v, lookupRun (f v).1.runs r = lookupRun v.runs r

theorem andThen_preservesRuns (r : String) (x : World × Option String)
    (f : World → World × Option String) (q : Option AgentRun)
    (hx : lookupRun x.1.runs r = q) (hf : PreservesRuns r f) :
    lookupRun (andThen x f).1.runs r = q := by
  unfold andThen
  cases hx2 : x.2 with
  | none => rw [← hx]; exact hf x.1
  | some e => exact hx

theorem faulty_preservesRuns (r : String) (fault : Option String)
    (act : World → World)
    (hact : ∀ v, lookupRun (act v).runs r = lookupRun v.runs r) :
    PreservesRuns r (faulty fault act) := by
  intro v
  unfold faulty
  cases fault with
  | none => exact hact v
  | some e => rfl

/-- The function `executeTask` never touches the stored run row of any other run id:
all its store writes go through `updateRun` at `t.runId`. -/
theorem executeTask_runs_other (fl : Faults) (ex : Exec) (t : AgentTask) (w : World)
    (r : String) (h : r ≠ t.runId) :
    lookupRun (executeTask fl ex t w).1.runs r = lookupRun w.runs r := by
  unfold executeTask
  cases fl.getRun with
  | some e => rfl
  | none =>
    cases hl : lookupRun w.runs t.runId with
    | none => rfl
    | some run =>
      apply andThen_preservesRuns
      · apply faulty_preservesRuns
        intro v
        simp [setRunning, emitLog, lookup_updateRun_other _ _ _ _ h]
      · intro v1
        apply andThen_preservesRuns
        · apply faulty_preservesRuns
          intro v
          simp [addMsg]
        · intro v2
          simp only []
          split
          · apply andThen_preservesRuns
            · refine (faulty_preservesRuns r _ _ (fun v => by simp [addMsg]) _).trans ?_
              split <;> simp [emitLog]
            · intro v3
              apply andThen_preservesRuns
              · exact (faulty_preservesRuns r _ _
                  (fun v => by simp [setCompleted, lookup_updateRun_other _ _ _ _ h]) _)
              · intro v4
                apply andThen_preservesRuns
                · split
                  · exact (faulty_preservesRuns r _ _ (fun v => by simp [addCostCall]) _)
                  · rfl
                · intro v5
                  cases fl.getOrg with
                  | some e => rfl
                  | none =>
                    apply andThen_preservesRuns
                    · cases lookupOrg v5.orgs t.orgId with
                      | none => rfl
                      | some org =>
                        exact (faulty_preservesRuns r _ _ (fun v => by simp [addUsage]) _)
                    · intro v6
                      refine (faulty_preservesRuns r _ _ (fun v => by simp [addAudit]) _).trans ?_
                      simp [emitLog]
          · simp [emitLog]

/-- The function `processTask` (the whole per-task try/catch) never touches the stored
run row of any other run id. -/
theorem processTask_runs_other (fl : Faults) (ex : Exec) (t : AgentTask) (w : World)
    (r : String) (h : r ≠ t.runId) :
    lookupRun (processTask fl ex t w).world.runs r = lookupRun w.runs r := by
  unfold processTask
  cases hx : executeTask fl ex t w with
  | mk w1 res =>
    have hw1 : lookupRun w1.runs r = lookupRun w.runs r := by
      have := executeTask_runs_other fl ex t w r h
      rw [hx] at this
      exact this
    cases res with
    | none => exact hw1
    | some e =>
      cases fl.updateFailed with
      | some e2 => simpa [emitLog] using hw1
      | none =>
        simp only [setFailed, emitLog]
        rw [lookup_updateRun_other _ _ _ _ h]
        simpa using hw1

/-- The structural invariant tying the `processing` flag, the `pending`
task and `activeCount` together: the flag is set exactly while a task is
in flight, and `activeCount` counts exactly that task. -/
def SlotInv (s : OrchestratorState) : Prop :=
  s.processing = s.pending.isSome ∧
  s.activeCount = (if s.pending.isSome then 1 else 0)

theorem slotInv_init (w : World) : SlotInv (initState w) := by
  constructor <;> rfl

theorem slotInv_step (fl : Faults) (ex : Exec) (s : OrchestratorState)
    (a : QueueAction) (hs : SlotInv s) : SlotInv (queueStep fl ex s a) := by
  obtain ⟨h1, h2⟩ := hs
  cases a with
  | enq t => exact ⟨h1, h2⟩
  | poll =>
    simp only [queueStep]
    split
    · exact ⟨h1, h2⟩
    · rename_i hguard
      split
      · exact ⟨h1, h2⟩
      · have hproc : s.processing = false := by
          by_contra hc
          exact hguard (Or.inl (by simpa using hc))
        have hpend : s.pending.isSome = false := by rw [← h1, hproc]
        constructor
        · simp
        · simp only [hpend] at h2
          simp [h2]
  | finish =>
    simp only [queueStep]
    cases hp : s.pending with
    | none => exact ⟨h1, h2⟩
    | some t =>
      constructor
      · simp
      · simp only [hp] at h2
        simp [h2]

theorem slotInv_run (fl : Faults) (ex : Exec) (s : OrchestratorState)
    (acts : List QueueAction) (hs : SlotInv s) :
    SlotInv (acts.foldl (queueStep fl ex) s) := by
  induction acts generalizing s with
  | nil => exact hs
  | cons a rest ih => exact ih _ (slotInv_step fl ex s a hs)

theorem slotInv_active_le_one (s : OrchestratorState) (hs : SlotInv s) :
    s.activeCount ≤ 1 := by
  obtain ⟨_, h2⟩ := hs
  rw [h2]
  split <;> simp

/-- The FIFO bookkeeping invariant: the enqueue history is exactly the
admission history followed by the current backlog. -/
def FifoInv (s : OrchestratorState) : Prop :=
  s.enqHist = s.admitted ++ s.queue

theorem fifoInv_init (w : World) : FifoInv (initState w) := rfl

theorem fifoInv_step (fl : Faults) (ex : Exec) (s : OrchestratorState)
    (a : QueueAction) (hs : FifoInv s) : FifoInv (queueStep fl ex s a) := by
  unfold FifoInv at hs ⊢
  cases a with
  | enq t => simp only [queueStep]; rw [hs, List.append_assoc]
  | poll =>
    simp only [queueStep]
    split
    · exact hs
    · split
      · exact hs
      · rename_i heq
        simp only [hs, heq, List.append_assoc, List.cons_append, List.nil_append,
          List.singleton_append]
    
  | finish =>
    simp only [queueStep]
    cases s.pending with
    | none => exact hs
    | some t => exact hs

theorem fifoInv_run (fl : Faults) (ex : Exec) (s : OrchestratorState)
    (acts : List QueueAction) (hs : FifoInv s) :
    FifoInv (acts.foldl (queueStep fl ex) s) := by
  induction acts generalizing s with
  | nil => exact hs
  | cons a rest ih => exact ih _ (fifoInv_step fl ex s a hs)

/-- The world produced by the fault-free success path of `executeTask`
(proved equal to it in `executeTask_noFaults_success`): start log, status
"running", user message, call log, progress events, optional fallback
log, assistant message, completion update, conditional cost tracking,
conditional usage record, success log, audit record. -/
def successWorld (t : AgentTask) (w : World) (run : AgentRun)
    (resp : RetryResponse) (prog : List LogItem) : World :=
  let cost := costOf resp.usage
  let w1 := emitLog t.runId "info"
    ("Starting agent run with " ++ run.provider ++ " (" ++ run.model ++ ")") w
  let w2 := setRunning t.runId w1
  let w3 := addMsg t.projectId t.runId "user" t.goal w2
  let w4 := emitLog t.runId "info"
    ("Calling " ++ run.provider ++ " with model " ++ run.model ++
     " (with retry/fallback)...") w3
  let w5 := { w4 with logs := w4.logs ++ prog.map (fun li => (t.runId, li)) }
  let w6 := if resp.usedProvider ≠ run.provider then
      emitLog t.runId "info"
        ("Used fallback provider: " ++ resp.usedProvider ++ " (" ++
         toString resp.attempts ++ " total attempts)") w5
    else w5
  let w7 := addMsg t.projectId t.runId "assistant" (resp.content.getD "") w6
  let w8 := setCompleted t.runId resp cost w7
  let w9 := if parseFloatPos cost then addCostCall t.orgId cost w8 else w8
  let w10 := match lookupOrg w.orgs t.orgId with
    | none => w9
    | some org => addUsage t org run resp cost w9
  let w11 := emitLog t.runId "success" ("Agent run completed. Cost: $" ++ cost) w10
  addAudit t run resp cost w11

/-- With no collaborator faults and a successful executor outcome,
`executeTask` runs to completion without throwing and its effects are
exactly those of `successWorld`. -/
theorem executeTask_noFaults_success (ex : Exec) (t : AgentTask) (w : World)
    (run : AgentRun) (resp : RetryResponse) (prog : List LogItem)
    (hrun : lookupRun w.runs t.runId = some run)
    (hex : ex run.provider t.goal run.model = (resp, prog))
    (hsucc : resp.success = true) :
    executeTask noFaults ex t w = (successWorld t w run resp prog, none) := by
  unfold executeTask successWorld
  by_cases hup : resp.usedProvider = run.provider <;>
    cases horg : lookupOrg w.orgs t.orgId <;>
    by_cases hpos : parseFloatPos (costOf resp.usage) <;>
    simp [noFaults, hrun, hex, hsucc, andThen, faulty, emitLog, addMsg, setRunning,
      setCompleted, addCostCall, addUsage, addAudit, hup, horg, hpos]


/-- The world produced by the fault-free prefix of `executeTask` up to
and including the executor call (start log, status "running", user
message, call log, progress events); this is the state in which an
executor failure is thrown. -/
def runningWorld (t : AgentTask) (w : World) (run : AgentRun)
    (prog : List LogItem) : World :=
  let w1 := emitLog t.runId "info"
    ("Starting agent run with " ++ run.provider ++ " (" ++ run.model ++ ")") w
  let w2 := setRunning t.runId w1
  let w3 := addMsg t.projectId t.runId "user" t.goal w2
  let w4 := emitLog t.runId "info"
    ("Calling " ++ run.provider ++ " with model " ++ run.model ++
     " (with retry/fallback)...") w3
  { w4 with logs := w4.logs ++ prog.map (fun li => (t.runId, li)) }

/-- With no collaborator faults and an unsuccessful executor outcome,
`executeTask` throws `response.error || "Provider call failed"` from the
state `runningWorld`. -/
theorem executeTask_noFaults_failure (ex : Exec) (t : AgentTask) (w : World)
    (run : AgentRun) (resp : RetryResponse) (prog : List LogItem)
    (hrun : lookupRun w.runs t.runId = some run)
    (hex : ex run.provider t.goal run.model = (resp, prog))
    (hfail : resp.success = false) :
    executeTask noFaults ex t w =
      (runningWorld t w run prog, some (jsOrStr resp.error "Provider call failed")) := by
  unfold executeTask runningWorld
  simp [noFaults, hrun, hex, hfail, andThen, faulty]

theorem slotInv_runQueue (fl : Faults) (ex : Exec) (w : World)
    (acts : List QueueAction) : SlotInv (runQueue fl ex w acts) :=
  slotInv_run fl ex (initState w) acts (slotInv_init w)

/-- C10: because `processQueue` sets the `processing` flag for the whole
execution of an admitted task and returns without admitting while it is
set, at most one task is ever actively executing, regardless of the
configured concurrency constant of 2: `activeCount` never exceeds 1. -/
theorem C10_at_most_one_active (fl : Faults) (ex : Exec) (w : World)
    (acts : List QueueAction) :
    (runQueue fl ex w acts).activeCount ≤ 1 :=
  slotInv_active_le_one _ (slotInv_run fl ex (initState w) acts (slotInv_init w))

/-- C4: for every sequence of enqueues, admissions and completions, the
number of tasks concurrently in active execution never exceeds the
configured concurrency constant (2). -/
theorem C4_concurrency_bound (fl : Faults) (ex : Exec) (w : World)
    (acts : List QueueAction) :
    (runQueue fl ex w acts).activeCount ≤ concurrency := by
  have h := slotInv_active_le_one _ (slotInv_run fl ex (initState w) acts (slotInv_init w))
  exact le_trans h (by norm_num [concurrency])

/-- C7: tasks are admitted for execution in exactly their enqueue order:
at every reachable state the enqueue history equals the admission history
followed by the still-backlogged tasks, so the admission sequence is an
order-preserving prefix of the enqueue sequence, also when more tasks are
enqueued than there are free slots. -/
theorem C7_fifo_admission (fl : Faults) (ex : Exec) (w : World)
    (acts : List QueueAction) :
    (runQueue fl ex w acts).enqHist =
      (runQueue fl ex w acts).admitted ++ (runQueue fl ex w acts).queue :=
  fifoInv_run fl ex (initState w) acts (fifoInv_init w)

theorem tryProvider_transient_ok (beh : String → Nat → AttemptResult)
    (p : String) (c : String) :
    ∀ fuel i k, i ≤ k → k < i + fuel →
    (∀ j, i ≤ j → j < k → ∃ m, beh p j = AttemptResult.transientErr m) →
    beh p k = AttemptResult.ok c →
    tryProvider beh p fuel i = (some c, k + 1) := by
  intro fuel
  induction fuel with
  | zero => intro i k h1 h2 _ _; omega
  | succ f ih =>
    intro i k h1 h2 htr hok
    by_cases hik : i = k
    · subst hik
      simp only [tryProvider, hok]
    · have hi : i < k := lt_of_le_of_ne h1 hik
      obtain ⟨m, hm⟩ := htr i le_rfl hi
      simp only [tryProvider, hm]
      exact ih (i + 1) k hi (by omega) (fun j hj1 hj2 => htr j (by omega) hj2) hok

/-- C9: if the primary provider fails transiently k times and then
succeeds, for k strictly below the per-provider attempt ceiling, the
executor returns success with the primary as the provider used and k+1
attempts; the retries stayed on the primary (no fallback provider was
consulted before the success). -/
theorem C9_retry_same_provider (beh : String → Nat → AttemptResult)
    (p : String) (rest : List String) (ceiling k : Nat) (c : String)
    (hk : k < ceiling)
    (hfail : ∀ i, i < k → ∃ m, beh p i = AttemptResult.transientErr m)
    (hok : beh p k = AttemptResult.ok c) :
    callWithRetry beh ceiling (p :: rest) 0 =
      ⟨true, some c, p, k + 1, none⟩ := by
  simp only [callWithRetry]
  rw [tryProvider_transient_ok beh p c ceiling 0 k (Nat.zero_le k) (by omega)
    (fun j _ hj2 => hfail j hj2) hok]
  simp

/-- Witness for C9 at a concrete behavior: one transient failure then
success on the primary, ceiling 3. -/
theorem C9_witness :
    callWithRetry behRetryOnce 3 ["openai", "anthropic"] 0 =
      ⟨true, some "done", "openai", 2, none⟩ :=
  C9_retry_same_provider behRetryOnce "openai" ["anthropic"] 3 1 "done" (by decide)
    (fun i hi => ⟨"timeout", by
      have hz : i = 0 := Nat.lt_one_iff.mp hi
      subst hz; rfl⟩) rfl

/-- C2: when the store has no record for the task's run id, `executeTask`
throws "Agent run not found" before performing any effect, and the catch
block's `failed` update matches no row; processing the task changes no
Run, creates no Message, Usage, Audit or cost-tracking record, emits an
error log event for that run id, lets nothing escape, and a task
backlogged behind it is still admitted afterwards. -/
theorem C2_missing_run (ex : Exec) (t u : AgentTask) (w : World)
    (h : lookupRun w.runs t.runId = none) :
    (processTask noFaults ex t w).world.runs = w.runs
  ∧ (processTask noFaults ex t w).world.messages = w.messages
  ∧ (processTask noFaults ex t w).world.usageRecords = w.usageRecords
  ∧ (processTask noFaults ex t w).world.auditLogs = w.auditLogs
  ∧ (processTask noFaults ex t w).world.costCalls = w.costCalls
  ∧ (t.runId, ⟨"error", "Task failed: Agent run not found"⟩) ∈
      (processTask noFaults ex t w).world.logs
  ∧ (processTask noFaults ex t w).escaped = none
  ∧ (runQueue noFaults ex w
      [.enq t, .poll, .finish, .enq u, .poll]).pending = some u := by
  have hpt : processTask noFaults ex t w =
      ⟨setFailed t.runId "Agent run not found"
        (emitLog t.runId "error" "Task failed: Agent run not found" w), none⟩ := by
    unfold processTask executeTask
    simp [noFaults, h]
  refine ⟨?_, ?_, ?_, ?_, ?_, ?_, ?_, ?_⟩
  · rw [hpt]
    simp only [setFailed, emitLog]
    exact updateRun_of_lookup_none _ _ _ h
  · rw [hpt]; rfl
  · rw [hpt]; rfl
  · rw [hpt]; rfl
  · rw [hpt]; rfl
  · rw [hpt]
    simp [setFailed, emitLog]
  · rw [hpt]
  · simp [runQueue, queueStep, initState, concurrency]

/-- A task whose run id has no record in `sampleWorld`. -/
def taskMissing : AgentTask := ⟨"ghost", "p1", "o1", "some goal", "chat"⟩

/-- Witness for C2: concrete missing-run task over `sampleWorld`. -/
theorem C2_witness :
    (processTask noFaults execSuccessHalf taskMissing sampleWorld).world.runs =
      sampleWorld.runs :=
  (C2_missing_run execSuccessHalf taskMissing sampleTask2 sampleWorld (by decide)).1

/-- C6: when the executor reports failure, the queue transitions the run
to status "failed" with the executor's error description in the output
payload, emits an error log event for that run id, creates no Usage and
no Audit record, performs no cost tracking, and nothing escapes the
catch block. -/
theorem C6_executor_failure (ex : Exec) (t : AgentTask) (w : World)
    (run : AgentRun) (resp : RetryResponse) (prog : List LogItem) (e : String)
    (hrun : lookupRun w.runs t.runId = some run)
    (hex : ex run.provider t.goal run.model = (resp, prog))
    (hfail : resp.success = false)
    (herr : resp.error = some e) (hne : e ≠ "") :
    lookupRun (processTask noFaults ex t w).world.runs t.runId =
      some { run with status := "failed", outputJson := Output.errorOut e }
  ∧ (t.runId, ⟨"error", "Task failed: " ++ e⟩) ∈ (processTask noFaults ex t w).world.logs
  ∧ (processTask noFaults ex t w).world.usageRecords = w.usageRecords
  ∧ (processTask noFaults ex t w).world.auditLogs = w.auditLogs
  ∧ (processTask noFaults ex t w).world.costCalls = w.costCalls
  ∧ (processTask noFaults ex t w).escaped = none := by
  have hj : jsOrStr resp.error "Provider call failed" = e := by
    simp [jsOrStr, herr, hne]
  have hpt : processTask noFaults ex t w =
      ⟨setFailed t.runId e
        (emitLog t.runId "error" ("Task failed: " ++ e) (runningWorld t w run prog)), none⟩ := by
    unfold processTask
    rw [executeTask_noFaults_failure ex t w run resp prog hrun hex hfail, hj]
    simp [noFaults]
  refine ⟨?_, ?_, ?_, ?_, ?_, ?_⟩
  · rw [hpt]
    simp [setFailed, emitLog, runningWorld, addMsg, setRunning,
      lookup_updateRun_self, hrun]
  · rw [hpt]
    simp [setFailed, emitLog, runningWorld, addMsg, setRunning]
  · rw [hpt]; rfl
  · rw [hpt]; rfl
  · rw [hpt]; rfl
  · rw [hpt]

/-- Witness for C6: the sample failing executor over `sampleWorld`. -/
theorem C6_witness :
    lookupRun (processTask noFaults execFailure sampleTask sampleWorld).world.runs "r1" =
      some { sampleRun with
               status := "failed",
               outputJson := Output.errorOut "all providers failed" } :=
  (C6_executor_failure execFailure sampleTask sampleWorld sampleRun
    ⟨false, none, none, "openai", 3, some "all providers failed"⟩ []
    "all providers failed" (by decide) rfl rfl rfl (by decide)).1

/-- Counterexample for C3: a run that completes successfully with no
usage reported derives cost estimate "0", and `trackCost` is then never
invoked — "exactly once per successful run" fails. -/
theorem C3_counterexample :
    (lookupRun (processTask noFaults execSuccessZero sampleTask sampleWorld).world.runs
      "r1").map AgentRun.status = some "completed"
  ∧ (processTask noFaults execSuccessZero sampleTask sampleWorld).world.costCalls = [] := by
  decide

/-- C3 (amended): for every run that completes successfully, `trackCost`
is invoked exactly once with exactly the executor outcome's cost estimate
string if and only if `parseFloat` of that string is positive; a
successful run whose cost estimate is zero or absent produces no
`trackCost` call. -/
theorem C3_trackCost_iff_positive (ex : Exec) (t : AgentTask) (w : World)
    (run : AgentRun) (resp : RetryResponse) (prog : List LogItem)
    (hrun : lookupRun w.runs t.runId = some run)
    (hex : ex run.provider t.goal run.model = (resp, prog))
    (hsucc : resp.success = true) :
    (processTask noFaults ex t w).world.costCalls =
      w.costCalls ++
        (if parseFloatPos (costOf resp.usage) then [(t.orgId, costOf resp.usage)]
         else []) := by
  unfold processTask
  rw [executeTask_noFaults_success ex t w run resp prog hrun hex hsucc]
  unfold successWorld
  cases horg : lookupOrg w.orgs t.orgId <;>
    by_cases hpos : parseFloatPos (costOf resp.usage) <;>
    by_cases hup : resp.usedProvider = run.provider <;>
    simp [addAudit, emitLog, addUsage, addCostCall, setCompleted, addMsg, setRunning,
      hpos, hup, horg]

/-- Witness for C3 (amended): concrete successful run with cost "0.5". -/
theorem C3_witness :
    (processTask noFaults execSuccessHalf sampleTask sampleWorld).world.costCalls =
      sampleWorld.costCalls ++
        (if parseFloatPos (costOf (some ⟨5, 7, some "0.5"⟩)) then
          [("o1", costOf (some ⟨5, 7, some "0.5"⟩))] else []) :=
  C3_trackCost_iff_positive execSuccessHalf sampleTask sampleWorld sampleRun
    ⟨true, some "hi", some ⟨5, 7, some "0.5"⟩, "openai", 1, none⟩ []
    (by decide) rfl rfl

/-- Counterexample for C5: a successful run whose owning org id has no
record in the store completes, yet no Usage record is created — "exactly
one Usage record per successful run" fails. -/
theorem C5_counterexample :
    (lookupRun (processTask noFaults execSuccessHalf sampleTask sampleWorldNoOrg).world.runs
      "r1").map AgentRun.status = some "completed"
  ∧ (processTask noFaults execSuccessHalf sampleTask sampleWorldNoOrg).world.usageRecords
      = [] := by
  decide

/-- C5 (amended): for every run that completes successfully and whose
owning organization is found by `getOrg`, exactly one Usage record is
created, attributing the token counts and cost estimate to the org
owner and the provider that actually served the request, with metadata
recording the run id, the originally requested provider and the attempt
count; when `getOrg` finds no org, no Usage record is created. -/
theorem C5_usage_record (ex : Exec) (t : AgentTask) (w : World)
    (run : AgentRun) (org : Org) (resp : RetryResponse) (prog : List LogItem)
    (hrun : lookupRun w.runs t.runId = some run)
    (horg : lookupOrg w.orgs t.orgId = some org)
    (hex : ex run.provider t.goal run.model = (resp, prog))
    (hsucc : resp.success = true) :
    (processTask noFaults ex t w).world.usageRecords =
      w.usageRecords ++
        [⟨t.orgId, org.ownerUserId, resp.usedProvider, run.model,
          (resp.usage.map UsageInfo.inputTokens).getD 0,
          (resp.usage.map UsageInfo.outputTokens).getD 0,
          costOf resp.usage, t.runId, run.provider, resp.attempts⟩] := by
  unfold processTask
  rw [executeTask_noFaults_success ex t w run resp prog hrun hex hsucc]
  unfold successWorld
  rw [horg]
  by_cases hpos : parseFloatPos (costOf resp.usage) <;>
    by_cases hup : resp.usedProvider = run.provider <;>
    simp [addAudit, emitLog, addUsage, addCostCall, setCompleted, addMsg, setRunning,
      hpos, hup]

/-- Witness for C5 (amended): concrete successful run over `sampleWorld`
whose org "o1" exists with owner "alice". -/
theorem C5_witness :
    (processTask noFaults execSuccessHalf sampleTask sampleWorld).world.usageRecords =
      sampleWorld.usageRecords ++
        [⟨"o1", "alice", "openai", "gpt-4o", 5, 7, costOf (some ⟨5, 7, some "0.5"⟩),
          "r1", "openai", 1⟩] :=
  C5_usage_record execSuccessHalf sampleTask sampleWorld sampleRun ⟨"alice"⟩
    ⟨true, some "hi", some ⟨5, 7, some "0.5"⟩, "openai", 1, none⟩ []
    (by decide) (by decide) rfl rfl

theorem queueStep_avoid (fl : Faults) (ex : Exec) (s : OrchestratorState)
    (a : QueueAction) (r : String)
    (hq : ∀ t ∈ s.queue, t.runId ≠ r)
    (hp : ∀ t, s.pending = some t → t.runId ≠ r)
    (ha : ∀ t, a = QueueAction.enq t → t.runId ≠ r) :
    lookupRun (queueStep fl ex s a).world.runs r = lookupRun s.world.runs r
  ∧ (∀ t ∈ (queueStep fl ex s a).queue, t.runId ≠ r)
  ∧ (∀ t, (queueStep fl ex s a).pending = some t → t.runId ≠ r) := by
  cases a with
  | enq t =>
    refine ⟨by simp [queueStep, emitLog], ?_, ?_⟩
    · intro t2 ht2
      simp only [queueStep, List.mem_append, List.mem_singleton] at ht2
      rcases ht2 with h1 | h1
      · exact hq t2 h1
      · exact ha t2 (by rw [h1])
    · intro t2 ht2
      simp only [queueStep] at ht2
      exact hp t2 ht2
  | poll =>
    simp only [queueStep]
    split
    · exact ⟨rfl, hq, hp⟩
    · split
      · exact ⟨rfl, hq, hp⟩
      · rename_i heq
        refine ⟨rfl, ?_, ?_⟩
        · intro t2 ht2
          exact hq t2 (by rw [heq]; exact List.mem_cons_of_mem _ ht2)
        · intro t2 ht2
          simp only [Option.some.injEq] at ht2
          exact ht2 ▸ hq _ (by rw [heq]; exact List.mem_cons_self _ _)
  | finish =>
    simp only [queueStep]
    cases hpd : s.pending with
    | none => exact ⟨rfl, hq, hp⟩
    | some t =>
      refine ⟨?_, hq, ?_⟩
      · exact processTask_runs_other fl ex t s.world r (Ne.symm (hp t hpd))
      · intro t2 ht2
        simp at ht2

/-- Counterexample for C1: with a successful executor outcome and a cost
governor whose `trackCost` throws, `executeTask` has already persisted
status "completed" when the throw occurs, and the catch block in
`processQueue` then overwrites that terminal status with "failed" — the
status regressed after a terminal state was persisted. -/
theorem C1_counterexample :
    (executeTask faultsTrackCost execSuccessHalf sampleTask sampleWorld).2 = some "tc down"
  ∧ (lookupRun (executeTask faultsTrackCost execSuccessHalf sampleTask sampleWorld).1.runs
      "r1").map AgentRun.status = some "completed"
  ∧ (lookupRun (processTask faultsTrackCost execSuccessHalf sampleTask sampleWorld).world.runs
      "r1").map AgentRun.status = some "failed" := by
  decide

/-- C1 (amended): once the queue holds no task for a run id — neither
backlogged, nor in flight — and no later enqueue names it, the run's
stored record (status and output included) is never written again, no
matter what the queue does for other tasks; within the processing of a
single task, however, a throw from a side effect after the "completed"
update (cost tracking, org lookup, usage- or audit-record creation) makes
the catch block overwrite the terminal status with "failed". -/
theorem C1_terminal_stability (fl : Faults) (ex : Exec) (s : OrchestratorState)
    (acts : List QueueAction) (r : String)
    (hq : ∀ t ∈ s.queue, t.runId ≠ r)
    (hp : ∀ t, s.pending = some t → t.runId ≠ r)
    (ha : ∀ t, QueueAction.enq t ∈ acts → t.runId ≠ r) :
    lookupRun (acts.foldl (queueStep fl ex) s).world.runs r =
      lookupRun s.world.runs r := by
  induction acts generalizing s with
  | nil => rfl
  | cons a rest ih =>
    obtain ⟨h1, h2, h3⟩ := queueStep_avoid fl ex s a r hq hp
      (fun t ht => ha t (ht ▸ List.mem_cons_self a rest))
    calc lookupRun ((a :: rest).foldl (queueStep fl ex) s).world.runs r
        = lookupRun (rest.foldl (queueStep fl ex) (queueStep fl ex s a)).world.runs r := rfl
      _ = lookupRun (queueStep fl ex s a).world.runs r :=
          ih (queueStep fl ex s a) h2 h3
            (fun t ht => ha t (List.mem_cons_of_mem a ht))
      _ = lookupRun s.world.runs r := h1

/-- A state with a completed run "r1" in the store and an unrelated task
backlogged, used to witness C1's stability statement. -/
def stateAfterR1 : OrchestratorState :=
  ⟨[sampleTask2], false, 0, none,
   ⟨[("r1", { sampleRun with status := "completed" }),
     ("r2", ⟨"openai", "gpt-4o", "queued", .noneOut, "0"⟩)],
    [("o1", ⟨"alice"⟩)], [], [], [], [], []⟩, [], [sampleTask], [sampleTask, sampleTask2]⟩

/-- Witness for C1 (amended): processing the backlogged unrelated task
"r2" leaves the completed record of "r1" untouched. -/
theorem C1_witness :
    lookupRun (([QueueAction.poll, QueueAction.finish].foldl
      (queueStep noFaults execSuccessHalf) stateAfterR1).world.runs) "r1" =
      lookupRun stateAfterR1.world.runs "r1" :=
  C1_terminal_stability noFaults execSuccessHalf stateAfterR1
    [QueueAction.poll, QueueAction.finish] "r1"
    (by intro t ht; simp [stateAfterR1] at ht; subst ht; decide)
    (by intro t ht; simp [stateAfterR1] at ht)
    (by intro t ht; simp at ht)

/-- Counterexample for C8: when the store's failure-path update
(`updateAgentRun` inside the catch block) itself throws, the exception is
not caught anywhere — it escapes `processQueue` as an unhandled
rejection, contradicting "never propagates out of the dispatch loop";
the `finally` block still frees the slot, so the backlog is not blocked. -/
theorem C8_counterexample :
    (processTask faultsCatchThrows execSuccessHalf sampleTask sampleWorld).escaped =
      some "db still down"
  ∧ (runQueue faultsCatchThrows execSuccessHalf sampleWorld
      [.enq sampleTask, .poll, .finish]).escapes = ["db still down"] := by
  decide

/-- C8 (amended): every exception thrown by `executeTask` is caught at
the task boundary and converted into an error log event plus a "failed"
run update, with nothing escaping — provided the failure-path store
write itself does not throw; the `finally` block then clears the
`processing` flag and the next backlogged task is still admitted. -/
theorem C8_exceptions_contained (fl : Faults) (ex : Exec) (t : AgentTask)
    (w w1 : World) (e : String)
    (hUF : fl.updateFailed = none)
    (hrun : executeTask fl ex t w = (w1, some e)) :
    processTask fl ex t w =
      ⟨setFailed t.runId e (emitLog t.runId "error" ("Task failed: " ++ e) w1), none⟩
  ∧ ∀ s : OrchestratorState, s.pending = some t → s.activeCount = 1 → s.world = w →
      (queueStep fl ex s .finish).processing = false
    ∧ (queueStep fl ex s .finish).escapes = s.escapes
    ∧ ∀ u rest, s.queue = u :: rest →
        (queueStep fl ex (queueStep fl ex s .finish) .poll).pending = some u := by
  have hpt : processTask fl ex t w =
      ⟨setFailed t.runId e (emitLog t.runId "error" ("Task failed: " ++ e) w1), none⟩ := by
    unfold processTask
    rw [hrun, hUF]
  refine ⟨hpt, ?_⟩
  intro s hs1 hs2 hs3
  have hfin : queueStep fl ex s .finish =
      { s with pending := none, activeCount := s.activeCount - 1, processing := false,
               world := (processTask fl ex t s.world).world,
               escapes := s.escapes ++ (processTask fl ex t s.world).escaped.toList } := by
    simp only [queueStep, hs1]
  refine ⟨by rw [hfin], ?_, ?_⟩
  · rw [hfin]
    simp [hs3, hpt]
  · intro u rest hqu
    rw [hfin]
    simp only [queueStep, hs2, concurrency]
    simp [hqu]

/-- A state in which `sampleTask` is in flight and `sampleTask2` is
backlogged, used to witness C8's containment statement. -/
def busyState : OrchestratorState :=
  ⟨[sampleTask2], true, 1, some sampleTask, sampleWorld, [], [sampleTask],
   [sampleTask, sampleTask2]⟩

/-- Witness for C8 (amended): with a store whose `getAgentRun` throws but
whose failure-path update succeeds, the exception is contained and the
next backlogged task is admitted. -/
theorem C8_witness :
    (queueStep faultsGetRun execSuccessHalf
      (queueStep faultsGetRun execSuccessHalf busyState .finish) .poll).pending =
      some sampleTask2 :=
  ((C8_exceptions_contained faultsGetRun execSuccessHalf sampleTask sampleWorld
      sampleWorld "db down" rfl rfl).2 busyState rfl rfl rfl).2.2 sampleTask2 [] rfl
